import Mathlib

/-!
Verification of the heatmap matrix panel (`src/HeatmapPanel.tsx`).

The panel receives a data frame (an ordered list of named columns plus a row
count), prunes empty category columns, validates that a column named "pivot"
exists, and renders a matrix of colored, labeled cells.  Numeric values are
modelled as exact rationals; JavaScript's special numbers (NaN, ±Infinity),
which arise in the change computation when the reference value is 0, are
modelled explicitly by the `JSNum` type.  Library calls at the interface
boundary (the `d3.interpolateBlues` palette, the `.3~s` and `.1%` number
formatters) are modelled as opaque constructors applied to their exact
arguments, per the spec's scoping of these collaborators.
-/

namespace Heatmap

/-- A JavaScript number: an exact finite value, NaN, or a signed infinity. -/
inductive JSNum where
  | num (q : ℚ)
  | nan
  | posInf
  | negInf
deriving DecidableEq, Repr

/-- JS truthiness of a number: 0 and NaN are falsy, everything else truthy. -/
def truthy : JSNum → Bool
  | JSNum.num q => !(q = 0)
  | JSNum.nan => false
  | JSNum.posInf => true
  | JSNum.negInf => true

/-- JS `x || 0`: replaces a falsy number (0 or NaN) by 0. -/
def jsOrZero (v : JSNum) : JSNum :=
  if truthy v then v else JSNum.num 0

/-- JS subtraction on numbers, with NaN and infinity propagation. -/
def jsSub : JSNum → JSNum → JSNum
  | JSNum.nan, _ => JSNum.nan
  | _, JSNum.nan => JSNum.nan
  | JSNum.num a, JSNum.num b => JSNum.num (a - b)
  | JSNum.num _, JSNum.posInf => JSNum.negInf
  | JSNum.num _, JSNum.negInf => JSNum.posInf
  | JSNum.posInf, JSNum.posInf => JSNum.nan
  | JSNum.posInf, _ => JSNum.posInf
  | JSNum.negInf, JSNum.negInf => JSNum.nan
  | JSNum.negInf, _ => JSNum.negInf

/-- JS division on numbers: division by 0 yields a signed infinity (or NaN
for 0/0), NaN propagates, finite/infinite is 0, infinite/infinite is NaN. -/
def jsDiv : JSNum → JSNum → JSNum
  | JSNum.nan, _ => JSNum.nan
  | _, JSNum.nan => JSNum.nan
  | JSNum.num a, JSNum.num b =>
      if b = 0 then
        if a > 0 then JSNum.posInf
        else if a < 0 then JSNum.negInf
        else JSNum.nan
      else JSNum.num (a / b)
  | JSNum.num _, JSNum.posInf => JSNum.num 0
  | JSNum.num _, JSNum.negInf => JSNum.num 0
  | JSNum.posInf, JSNum.num b => if b < 0 then JSNum.negInf else JSNum.posInf
  | JSNum.negInf, JSNum.num b => if b < 0 then JSNum.posInf else JSNum.negInf
  | JSNum.posInf, JSNum.posInf => JSNum.nan
  | JSNum.posInf, JSNum.negInf => JSNum.nan
  | JSNum.negInf, JSNum.posInf => JSNum.nan
  | JSNum.negInf, JSNum.negInf => JSNum.nan

/-- JS `>` comparison: any comparison with NaN is false. -/
def jsGt : JSNum → JSNum → Bool
  | JSNum.nan, _ => false
  | _, JSNum.nan => false
  | JSNum.num a, JSNum.num b => a > b
  | JSNum.num _, JSNum.posInf => false
  | JSNum.num _, JSNum.negInf => true
  | JSNum.posInf, JSNum.posInf => false
  | JSNum.posInf, _ => true
  | JSNum.negInf, _ => false

/-- JS `<` comparison: any comparison with NaN is false. -/
def jsLt (a b : JSNum) : Bool := jsGt b a

/-- Rounding to 2 decimal places: the semantics of
`parseFloat(d3.format(".2f")(x))` on a finite value. -/
def round2 (q : ℚ) : ℚ := (round (q * 100) : ℤ) / 100

/-- One column of the data frame: a name and its values.  Values are
modelled as rationals; the pivot column's values serve only as row keys. -/
structure Field where
  name : String
  values : List ℚ
deriving DecidableEq, Repr

/-- The data frame: `data.series[0]` — an ordered list of fields plus the
frame row count (`frame.length` in the source, bound to `dataLen`). -/
structure Frame where
  fields : List Field
  dataLen : ℕ
deriving DecidableEq, Repr

/-- The user-facing panel options (from `types.ts`). -/
inductive ChangeDirection where
  | topToBottom
  | bottomToTop
deriving DecidableEq, Repr

structure HeatmapOptions where
  changeDirection : ChangeDirection
  toggleColor : Bool
deriving DecidableEq, Repr

/-- The `config` object assembled at the top of the component.
`removeEmptyCols` is hard-coded `true`; `colorBy` starts at
`COLOR_CELL_BY.change = 0`. -/
structure Config where
  removeEmptyCols : Bool
  changeDirection : ChangeDirection
  colorBy : ℕ
  toggleColor : Bool
deriving DecidableEq, Repr

def mkConfig (o : HeatmapOptions) : Config :=
  { removeEmptyCols := true
    changeDirection := o.changeDirection
    colorBy := 0
    toggleColor := o.toggleColor }

/-- `config.referenceChange`: +1 (next pivot index) when the direction is
bottomToTop, otherwise −1 (previous pivot index). -/
def referenceChange (cfg : Config) : ℤ :=
  if cfg.changeDirection = ChangeDirection.bottomToTop then 1 else -1

/-- `d3.sum(field.values.toArray())`. -/
def fieldSum (f : Field) : ℚ := f.values.sum

/-- `baseCategoryFields`: every field other than the required "pivot" one. -/
def baseCategoryFields (frame : Frame) : List Field :=
  frame.fields.filter (fun f => !(f.name == "pivot"))

/-- `categoryFields`: the pruned category columns — with `removeEmptyCols`
on, only those whose values sum to a strictly positive total. -/
def categoryFields (cfg : Config) (frame : Frame) : List Field :=
  if !cfg.removeEmptyCols then baseCategoryFields frame
  else (baseCategoryFields frame).filter (fun f => decide (0 < fieldSum f))

/-- `categories`: the names of the pruned category columns, in table order. -/
def categories (cfg : Config) (frame : Frame) : List String :=
  (categoryFields cfg frame).map Field.name

/-- `d3.extent` of a list of rationals: `none` on the empty list (where d3
returns `[undefined, undefined]`), otherwise the (min, max) pair. -/
def extent (xs : List ℚ) : Option (ℚ × ℚ) :=
  match xs with
  | [] => none
  | x :: rest => some (rest.foldl (fun p v => (min p.1 v, max p.2 v)) (x, x))

/-- The (possibly empty) list `[min, max]` of a per-field extent, as fed to
the outer `d3.extent` by `flatMap` (d3 ignores the undefineds of an empty
field, which is the same as contributing nothing). -/
def extentList (xs : List ℚ) : List ℚ :=
  match extent xs with
  | none => []
  | some p => [p.1, p.2]

/-- `categoryExtent`: the global color-domain extent, computed from the
pruned category fields only. -/
def categoryExtent (cfg : Config) (frame : Frame) : Option (ℚ × ℚ) :=
  extent ((categoryFields cfg frame).flatMap (fun f => extentList f.values))

/-- `formatValue({category, pivotIndex})`: finds the category column among
the pruned fields and rounds its value at `pivotIndex` to 2 decimals.
`none` models the TypeError thrown when the category name is absent
(`find` yields `undefined`); an out-of-range index yields `undefined` from
the vector, which the `.2f`-format/parseFloat pipeline turns into NaN. -/
def formatValue (categoryFields : List Field) (category : String) (pivotIndex : ℤ) :
    Option JSNum :=
  match categoryFields.find? (fun f => f.name == category) with
  | none => none
  | some f =>
      if h : 0 ≤ pivotIndex ∧ pivotIndex.toNat < f.values.length then
        some (JSNum.num (round2 (f.values.get ⟨pivotIndex.toNat, h.2⟩)))
      else
        some JSNum.nan

/-- `getValues({category, pivotIndex})`: the (currentValue, referenceValue,
change) triple.  The reference lookup is defaulted with `|| 0`, and the
change is the JS quotient `(currentValue - referenceValue) / referenceValue`. -/
def getValues (categoryFields : List Field) (referenceChange : ℤ)
    (category : String) (pivotIndex : ℕ) : Option (JSNum × JSNum × JSNum) :=
  (formatValue categoryFields category (pivotIndex : ℤ)).bind (fun currentValue =>
    (formatValue categoryFields category ((pivotIndex : ℤ) + referenceChange)).map
      (fun referenceValueRaw =>
        let referenceValue := jsOrZero referenceValueRaw
        (currentValue, referenceValue,
          jsDiv (jsSub currentValue referenceValue) referenceValue)))

/-- An RGB color with exact rational channels. -/
structure RGB where
  r : ℚ
  g : ℚ
  b : ℚ
deriving DecidableEq, Repr

/-- A cell fill color: an interpolated RGB value, a point on the opaque
`d3.interpolateBlues` palette, or the unspecified result d3 produces on a
non-finite or undefined input. -/
inductive Color where
  | rgb (c : RGB)
  | blues (t : JSNum)
  | invalid
deriving DecidableEq, Repr

/-- Component-wise linear interpolation between two RGB colors
(`d3.interpolateRgb`). -/
def lerpRGB (a b : RGB) (t : ℚ) : RGB :=
  ⟨a.r + (b.r - a.r) * t, a.g + (b.g - a.g) * t, a.b + (b.b - a.b) * t⟩

def redC : RGB := ⟨255, 0, 0⟩

/-- CSS `rgb(250, 248, 193)`, the pale-yellow midpoint. -/
def paleYellow : RGB := ⟨250, 248, 193⟩

/-- CSS `green` is rgb(0, 128, 0). -/
def greenC : RGB := ⟨0, 128, 0⟩

/-- The `colorByChange` scale: `d3.scaleLinear` with domain [−1.5, 0, 1.5]
and range [red, pale yellow, green] under RGB interpolation — piecewise
linear in each segment, extrapolating linearly outside the domain. -/
def colorByChange (t : ℚ) : Color :=
  if t ≤ 0 then Color.rgb (lerpRGB redC paleYellow ((t + 3/2) / (3/2)))
  else Color.rgb (lerpRGB paleYellow greenC (t / (3/2)))

/-- The by-change scale on a JS number; a non-finite input yields an
unspecified color. -/
def colorByChangeN : JSNum → Color
  | JSNum.num t => colorByChange t
  | _ => Color.invalid

/-- The clamping in `colorChange`:
`change > 1 ? 1 : change < -1 ? -1 : change` (NaN passes through). -/
def clampChange (change : JSNum) : JSNum :=
  if jsGt change (JSNum.num 1) then JSNum.num 1
  else if jsLt change (JSNum.num (-1)) then JSNum.num (-1)
  else change

/-- The branch structure of the `colorChange` helper, applied to a
`getValues` triple. -/
def colorChangeOf (v : JSNum × JSNum × JSNum) : Color :=
  if v.1 = JSNum.num 0 then colorByChange 0
  else if v.2.1 = JSNum.num 0 then colorByChange (1/2)
  else colorByChangeN (clampChange v.2.2)

/-- `colorChange(d)` for the cell `d = {category, pivotIndex}`. -/
def colorChange (categoryFields : List Field) (referenceChange : ℤ)
    (category : String) (pivotIndex : ℕ) : Option Color :=
  (getValues categoryFields referenceChange category pivotIndex).map colorChangeOf

/-- The `colorAsHeatmap` sequential scale: normalizes over the global
category extent (a degenerate domain maps to 0.5, as in d3's sequential
scale) and feeds `d3.interpolateBlues` through the `[0, 0.7]` compression
`clampColorRange`.  An empty extent or non-finite value yields an
unspecified color. -/
def colorAsHeatmap (ext : Option (ℚ × ℚ)) (v : JSNum) : Color :=
  match ext, v with
  | some p, JSNum.num q =>
      Color.blues (JSNum.num ((7/10) * (if p.2 = p.1 then 1/2 else (q - p.1) / (p.2 - p.1))))
  | _, _ => Color.invalid

/-- `colorHeatmap(d)`: the heatmap color of a cell's current value. -/
def colorHeatmap (cfg : Config) (frame : Frame) (category : String) (pivotIndex : ℕ) :
    Option Color :=
  (getValues (categoryFields cfg frame) (referenceChange cfg) category pivotIndex).map
    (fun v => colorAsHeatmap (categoryExtent cfg frame) v.1)

/-- `getColor(d)`: dispatch on the active color mode
(`COLOR_CELL_BY.change = 0`, `COLOR_CELL_BY.heatmap = 1`); the switch's
default branch returns undefined. -/
def getColor (cfg : Config) (colorBy : ℕ) (frame : Frame)
    (category : String) (pivotIndex : ℕ) : Option Color :=
  match colorBy with
  | 0 => colorChange (categoryFields cfg frame) (referenceChange cfg) category pivotIndex
  | 1 => colorHeatmap cfg frame category pivotIndex
  | _ => none

/-- `toggleColoring`: with the toggle flag off, return early (state kept,
no recolor pass); otherwise advance the mode modulo `COLOR_OPTIONS_SIZE = 2`
and recolor every cell.  The boolean records whether the recolor transition
was scheduled. -/
def toggleColoring (cfg : Config) (colorBy : ℕ) : ℕ × Bool :=
  if !cfg.toggleColor then (colorBy, false)
  else ((colorBy + 1) % 2, true)

/-- A cell label line at the formatting-library boundary: `si3 v` stands
for `d3.format(".3~s")(v)` (SI-suffixed, 3 significant digits), `pct1 v`
for `d3.format(".1%")(v)` (1-decimal percent), `dash` for the placeholder. -/
inductive CellText where
  | si3 (v : JSNum)
  | pct1 (v : JSNum)
  | dash
deriving DecidableEq, Repr

/-- The first label line: `currentValue ? format(".3~s")(currentValue) : "-"`. -/
def cellLine1 (currentValue : JSNum) : CellText :=
  if truthy currentValue then CellText.si3 currentValue else CellText.dash

/-- The second label line, drawn only when
`currentValue && referenceValue` is truthy. -/
def cellLine2 (currentValue referenceValue change : JSNum) : Option CellText :=
  if truthy currentValue && truthy referenceValue then some (CellText.pct1 change)
  else none

/-- The two text lines of a cell, derived from its `getValues` triple. -/
def cellLabel (categoryFields : List Field) (referenceChange : ℤ)
    (category : String) (pivotIndex : ℕ) : Option (CellText × Option CellText) :=
  (getValues categoryFields referenceChange category pivotIndex).map
    (fun v => (cellLine1 v.1, cellLine2 v.1 v.2.1 v.2.2))

/-- The rendered output: the horizontal domain, the row keys, and one
entry per (category, row) cell with its fill and label lines. -/
structure RenderOutput where
  categories : List String
  pivots : List ℚ
  cells : List (String × ℕ × Option Color × Option (CellText × Option CellText))
deriving Repr

/-- The component body: validate that a "pivot" field exists — throwing
`Required fields not present: pivot` before anything is drawn when it does
not — then render every cell under the initial configuration. -/
def renderPanel (o : HeatmapOptions) (frame : Frame) : Except String RenderOutput :=
  let cfg := mkConfig o
  match frame.fields.find? (fun f => f.name == "pivot") with
  | none => Except.error "Required fields not present: pivot"
  | some pivotAccesor =>
      Except.ok
        { categories := categories cfg frame
          pivots := pivotAccesor.values
          cells :=
            (List.range frame.dataLen).flatMap (fun pivotIndex =>
              (categories cfg frame).map (fun category =>
                (category, pivotIndex,
                  getColor cfg cfg.colorBy frame category pivotIndex,
                  cellLabel (categoryFields cfg frame) (referenceChange cfg)
                    category pivotIndex))) }

/-- The value the spec assigns to `referenceValue`: the 2-decimal rounding
of the table value at the reference index when that index is in range,
and 0 otherwise (an in-range falsy rounding is already 0). -/
def refValueSpec (f : Field) (referenceIndex : ℤ) : ℚ :=
  if h : 0 ≤ referenceIndex ∧ referenceIndex.toNat < f.values.length then
    round2 (f.values.get ⟨referenceIndex.toNat, h.2⟩)
  else 0

/-- A concrete options value used by the concrete-scenario theorems. -/
def optC8 : HeatmapOptions := ⟨ChangeDirection.bottomToTop, true⟩

/-- The spec's scenario frame: pivot rows A, B, C (modelled by the row keys
1, 2, 3 — the pivot column's values are only row labels) and one category
column X = [10, 20, 0]. -/
def frameC8 : Frame := ⟨[⟨"pivot", [1, 2, 3]⟩, ⟨"X", [10, 20, 0]⟩], 3⟩

/-- The X column of the scenario frame. -/
def fieldX : Field := ⟨"X", [10, 20, 0]⟩

theorem jsOrZero_num (q : ℚ) : jsOrZero (JSNum.num q) = JSNum.num q := by
  by_cases h : q = 0 <;> simp [jsOrZero, truthy, h]

theorem formatValue_in_range (cats : List Field) (category : String) (f : Field)
    (hfind : cats.find? (fun g => g.name == category) = some f) (r : ℤ)
    (hr : 0 ≤ r ∧ r.toNat < f.values.length) :
    formatValue cats category r = some (JSNum.num (round2 (f.values.get ⟨r.toNat, hr.2⟩))) := by
  unfold formatValue
  rw [hfind]
  exact dif_pos hr

theorem formatValue_out_range (cats : List Field) (category : String) (f : Field)
    (hfind : cats.find? (fun g => g.name == category) = some f) (r : ℤ)
    (hr : ¬(0 ≤ r ∧ r.toNat < f.values.length)) :
    formatValue cats category r = some JSNum.nan := by
  unfold formatValue
  rw [hfind]
  exact dif_neg hr

/-- Characterization of `getValues` at an in-range cell of a found column:
the current value is the 2-decimal rounding of the stored value, the
reference value is `refValueSpec`, and the change is the JS quotient. -/
theorem getValues_char (cats : List Field) (δ : ℤ) (category : String) (i : ℕ)
    (f : Field) (hfind : cats.find? (fun g => g.name == category) = some f)
    (hi : i < f.values.length) :
    getValues cats δ category i =
      some (JSNum.num (round2 (f.values.get ⟨i, hi⟩)),
            JSNum.num (refValueSpec f ((i : ℤ) + δ)),
            jsDiv (jsSub (JSNum.num (round2 (f.values.get ⟨i, hi⟩)))
                         (JSNum.num (refValueSpec f ((i : ℤ) + δ))))
                  (JSNum.num (refValueSpec f ((i : ℤ) + δ)))) := by
  have h0 : (0 : ℤ) ≤ (i : ℤ) ∧ ((i : ℤ)).toNat < f.values.length :=
    ⟨Int.natCast_nonneg i, by simpa using hi⟩
  unfold getValues
  rw [formatValue_in_range cats category f hfind _ h0]
  by_cases hr : 0 ≤ (i : ℤ) + δ ∧ ((i : ℤ) + δ).toNat < f.values.length
  · rw [formatValue_in_range cats category f hfind _ hr]
    unfold refValueSpec
    rw [dif_pos hr]
    simp [jsOrZero_num, Option.bind]
  · rw [formatValue_out_range cats category f hfind _ hr]
    unfold refValueSpec
    rw [dif_neg hr]
    simp [jsOrZero, truthy, Option.bind]

theorem catFieldsC8 : categoryFields (mkConfig optC8) frameC8 = [fieldX] := by
  simp [categoryFields, mkConfig, baseCategoryFields, frameC8, fieldX, fieldSum]
  norm_num

theorem findXC8 :
    (categoryFields (mkConfig optC8) frameC8).find? (fun g => g.name == "X") = some fieldX := by
  rw [catFieldsC8]
  simp [List.find?, fieldX]

theorem refChangeC8 : referenceChange (mkConfig optC8) = 1 := rfl

theorem getValuesC8_row0 :
    getValues (categoryFields (mkConfig optC8) frameC8) (referenceChange (mkConfig optC8)) "X" 0
      = some (JSNum.num 10, JSNum.num 20, JSNum.num (-(1/2))) := by
  rw [refChangeC8]
  have h := getValues_char (categoryFields (mkConfig optC8) frameC8)
    1 "X" 0 fieldX findXC8 (by norm_num [fieldX])
  rw [h]
  have hr : refValueSpec fieldX (((0 : ℕ) : ℤ) + 1) = 20 := by
    rw [refValueSpec, dif_pos (by decide)]
    norm_num [fieldX, round2, round_eq]
  rw [hr]
  have hg : fieldX.values.get ⟨0, by norm_num [fieldX]⟩ = 10 := rfl
  rw [hg]
  have h10 : round2 10 = 10 := by norm_num [round2, round_eq]
  rw [h10]
  simp [jsSub, jsDiv]
  norm_num

theorem getValuesC8_row2 :
    getValues (categoryFields (mkConfig optC8) frameC8) (referenceChange (mkConfig optC8)) "X" 2
      = some (JSNum.num 0, JSNum.num 0, JSNum.nan) := by
  rw [refChangeC8]
  have h := getValues_char (categoryFields (mkConfig optC8) frameC8)
    1 "X" 2 fieldX findXC8 (by norm_num [fieldX])
  rw [h]
  have hr : refValueSpec fieldX (((2 : ℕ) : ℤ) + 1) = 0 := by
    rw [refValueSpec, dif_neg (by decide)]
  rw [hr]
  have hg : fieldX.values.get ⟨2, by norm_num [fieldX]⟩ = 0 := rfl
  rw [hg]
  have h0 : round2 0 = 0 := by norm_num [round2, round_eq]
  rw [h0]
  simp [jsSub, jsDiv]

/-- C1: for a category in the pruned set and a pivotIndex in [0, rowCount),
`getValues` returns the table value rounded to 2 decimals as currentValue,
the rounded value at pivotIndex + referenceOffset (defaulting to 0 out of
range or when falsy) as referenceValue, with referenceOffset = +1 for
bottomToTop and −1 for topToBottom, and the JS quotient
(currentValue − referenceValue) / referenceValue as change. -/
theorem C1_cell_value_derivation (o : HeatmapOptions) (frame : Frame) (category : String)
    (f : Field) (pivotIndex : ℕ)
    (hfind : (categoryFields (mkConfig o) frame).find? (fun g => g.name == category) = some f)
    (hlen : f.values.length = frame.dataLen)
    (hi : pivotIndex < frame.dataLen) :
    referenceChange (mkConfig o)
        = (if o.changeDirection = ChangeDirection.bottomToTop then 1 else -1) ∧
    getValues (categoryFields (mkConfig o) frame) (referenceChange (mkConfig o))
        category pivotIndex
      = some (JSNum.num (round2 (f.values.get ⟨pivotIndex, by omega⟩)),
              JSNum.num (refValueSpec f ((pivotIndex : ℤ) + referenceChange (mkConfig o))),
              jsDiv
                (jsSub (JSNum.num (round2 (f.values.get ⟨pivotIndex, by omega⟩)))
                  (JSNum.num (refValueSpec f ((pivotIndex : ℤ) + referenceChange (mkConfig o)))))
                (JSNum.num (refValueSpec f ((pivotIndex : ℤ) + referenceChange (mkConfig o))))) := by
  exact ⟨rfl, getValues_char _ _ _ _ f hfind (by omega)⟩

theorem C1_witness :
    getValues (categoryFields (mkConfig optC8) frameC8) (referenceChange (mkConfig optC8)) "X" 0
      = some (JSNum.num 10, JSNum.num 20, JSNum.num (-(1/2))) := by
  have h := C1_cell_value_derivation optC8 frameC8 "X" fieldX 0 findXC8 rfl (by decide)
  rw [h.2, refChangeC8]
  have hr : refValueSpec fieldX (((0 : ℕ) : ℤ) + 1) = 20 := by
    rw [refValueSpec, dif_pos (by decide)]
    norm_num [fieldX, round2, round_eq]
  rw [hr]
  have hg : fieldX.values.get ⟨0, by norm_num [fieldX]⟩ = 10 := rfl
  rw [hg]
  have h10 : round2 10 = 10 := by norm_num [round2, round_eq]
  rw [h10]
  simp [jsSub, jsDiv]
  norm_num

/-- C9: under the preconditions (category present in the pruned set,
pivotIndex in range) the value derivation is total: `getValues` and the
reference-index `formatValue` lookup both succeed, even when the reference
index is out of range, so the operation's error path is unreachable. -/
theorem C9_derivation_total (o : HeatmapOptions) (frame : Frame) (category : String)
    (f : Field) (pivotIndex : ℕ)
    (hfind : (categoryFields (mkConfig o) frame).find? (fun g => g.name == category) = some f)
    (hlen : f.values.length = frame.dataLen)
    (hi : pivotIndex < frame.dataLen) :
    (getValues (categoryFields (mkConfig o) frame) (referenceChange (mkConfig o))
        category pivotIndex).isSome = true ∧
    (formatValue (categoryFields (mkConfig o) frame) category
        ((pivotIndex : ℤ) + referenceChange (mkConfig o))).isSome = true := by
  constructor
  · rw [getValues_char _ _ _ _ f hfind (by omega)]
    rfl
  · by_cases hr : 0 ≤ (pivotIndex : ℤ) + referenceChange (mkConfig o) ∧
        ((pivotIndex : ℤ) + referenceChange (mkConfig o)).toNat < f.values.length
    · rw [formatValue_in_range _ _ _ hfind _ hr]
      rfl
    · rw [formatValue_out_range _ _ _ hfind _ hr]
      rfl

theorem C9_witness :
    (getValues (categoryFields (mkConfig optC8) frameC8) (referenceChange (mkConfig optC8))
        "X" 2).isSome = true ∧
    (formatValue (categoryFields (mkConfig optC8) frameC8) "X"
        ((2 : ℤ) + referenceChange (mkConfig optC8))).isSome = true :=
  C9_derivation_total optC8 frameC8 "X" fieldX 2 findXC8 rfl (by decide)

/-- C8: in the scenario frame (pivot rows A, B, C; X = [10, 20, 0];
direction bottomToTop, offset +1), cell (X, row A) has referenceValue 20
and change −0.5, and cell (X, row C) has currentValue 0, a dash label, and
the neutral by-change color, regardless of its reference value. -/
theorem C8_scenario :
    referenceChange (mkConfig optC8) = 1 ∧
    getValues (categoryFields (mkConfig optC8) frameC8) (referenceChange (mkConfig optC8)) "X" 0
      = some (JSNum.num 10, JSNum.num 20, JSNum.num (-(1/2))) ∧
    getValues (categoryFields (mkConfig optC8) frameC8) (referenceChange (mkConfig optC8)) "X" 2
      = some (JSNum.num 0, JSNum.num 0, JSNum.nan) ∧
    cellLabel (categoryFields (mkConfig optC8) frameC8) (referenceChange (mkConfig optC8)) "X" 2
      = some (CellText.dash, none) ∧
    colorChange (categoryFields (mkConfig optC8) frameC8) (referenceChange (mkConfig optC8)) "X" 2
      = some (colorByChange 0) := by
  refine ⟨rfl, getValuesC8_row0, getValuesC8_row2, ?_, ?_⟩
  · unfold cellLabel
    rw [getValuesC8_row2]
    simp [cellLine1, cellLine2, truthy]
  · unfold colorChange
    rw [getValuesC8_row2]
    simp [colorChangeOf]

/-- C6: with the toggle flag enabled, two click transitions return the
color mode to its original state, so every cell's computed fill color
after two toggles equals its fill color before them. -/
theorem C6_toggle_roundtrip (cfg : Config) (h : cfg.toggleColor = true) (colorBy : ℕ)
    (hs : colorBy < 2) (frame : Frame) (category : String) (pivotIndex : ℕ) :
    (toggleColoring cfg (toggleColoring cfg colorBy).1).1 = colorBy ∧
    getColor cfg (toggleColoring cfg (toggleColoring cfg colorBy).1).1 frame category pivotIndex
      = getColor cfg colorBy frame category pivotIndex := by
  have h1 : (toggleColoring cfg (toggleColoring cfg colorBy).1).1 = colorBy := by
    unfold toggleColoring
    simp [h]
    omega
  exact ⟨h1, by rw [h1]⟩

theorem C6_witness :
    (toggleColoring (mkConfig optC8) (toggleColoring (mkConfig optC8) 0).1).1 = 0 ∧
    getColor (mkConfig optC8) (toggleColoring (mkConfig optC8) (toggleColoring (mkConfig optC8) 0).1).1
        frameC8 "X" 0
      = getColor (mkConfig optC8) 0 frameC8 "X" 0 :=
  C6_toggle_roundtrip (mkConfig optC8) rfl 0 (by decide) frameC8 "X" 0

/-- C7: with the toggleColor flag false, a click leaves the color mode
unchanged and schedules no recolor pass — a no-op on all render state. -/
theorem C7_toggle_disabled (cfg : Config) (h : cfg.toggleColor = false) (colorBy : ℕ) :
    toggleColoring cfg colorBy = (colorBy, false) := by
  unfold toggleColoring
  simp [h]

theorem C7_witness :
    toggleColoring (mkConfig ⟨ChangeDirection.topToBottom, false⟩) 1 = (1, false) :=
  C7_toggle_disabled (mkConfig ⟨ChangeDirection.topToBottom, false⟩) rfl 1

theorem renderPanel_ok (o : HeatmapOptions) (frame : Frame) (p : Field)
    (hfind : frame.fields.find? (fun g => g.name == "pivot") = some p) :
    renderPanel o frame =
      Except.ok
        { categories := categories (mkConfig o) frame
          pivots := p.values
          cells :=
            (List.range frame.dataLen).flatMap (fun pivotIndex =>
              (categories (mkConfig o) frame).map (fun category =>
                (category, pivotIndex,
                  getColor (mkConfig o) (mkConfig o).colorBy frame category pivotIndex,
                  cellLabel (categoryFields (mkConfig o) frame) (referenceChange (mkConfig o))
                    category pivotIndex))) } := by
  simp only [renderPanel, hfind]

/-- C4: a frame with no column named "pivot" makes the component throw the
error "Required fields not present: pivot" (identifying the missing field
name) before any render output is produced, and a frame with such a column
never triggers this error. -/
theorem C4_pivot_validation (o : HeatmapOptions) (frame : Frame) :
    ((∀ f ∈ frame.fields, f.name ≠ "pivot") →
        renderPanel o frame = Except.error "Required fields not present: pivot") ∧
    ((∃ f ∈ frame.fields, f.name = "pivot") →
        ∃ out, renderPanel o frame = Except.ok out) := by
  constructor
  · intro hall
    have hnone : frame.fields.find? (fun f => f.name == "pivot") = none := by
      rw [List.find?_eq_none]
      intro x hx
      simpa using hall x hx
    simp only [renderPanel, hnone]
  · rintro ⟨f, hf, hname⟩
    cases hfind : frame.fields.find? (fun g => g.name == "pivot") with
    | none =>
        rw [List.find?_eq_none] at hfind
        exact absurd (by simp [hname]) (hfind f hf)
    | some p =>
        exact ⟨_, renderPanel_ok o frame p hfind⟩

def frameNoPivot : Frame := ⟨[⟨"a", [1]⟩], 1⟩

theorem C4_witness :
    renderPanel optC8 frameNoPivot = Except.error "Required fields not present: pivot" ∧
    ∃ out, renderPanel optC8 frameC8 = Except.ok out :=
  ⟨(C4_pivot_validation optC8 frameNoPivot).1 (by decide),
   (C4_pivot_validation optC8 frameC8).2 ⟨⟨"pivot", [1, 2, 3]⟩, by decide, rfl⟩⟩

theorem clampChange_num (q : ℚ) :
    clampChange (JSNum.num q) = JSNum.num (min 1 (max (-1) q)) := by
  unfold clampChange jsLt jsGt
  by_cases h1 : (1 : ℚ) < q
  · have hm : min (1 : ℚ) (max (-1) q) = 1 := by
      rw [max_eq_right (by linarith), min_eq_left (by linarith)]
    simp [h1, hm]
  · by_cases h2 : q < -1
    · have hm : min (1 : ℚ) (max (-1) q) = -1 := by
        rw [max_eq_left (by linarith), min_eq_right (by linarith)]
      simp [h1, h2, hm]
    · have hm : min (1 : ℚ) (max (-1) q) = q := by
        rw [max_eq_right (by linarith), min_eq_right (by linarith)]
      simp [h1, h2, hm]

theorem colorChangeOf_num (c r : ℚ) :
    colorChangeOf (JSNum.num c, JSNum.num r,
        jsDiv (jsSub (JSNum.num c) (JSNum.num r)) (JSNum.num r))
      = (if c = 0 then colorByChange 0
         else if r = 0 then colorByChange (1/2)
         else colorByChange (min 1 (max (-1) ((c - r) / r)))) := by
  unfold colorChangeOf
  by_cases hc : c = 0
  · simp [hc]
  · by_cases hr : r = 0
    · simp [hc, hr]
    · simp [hc, hr, jsSub, jsDiv, colorByChangeN, clampChange_num]

/-- C2: under by-change mode, a cell whose rounded current value is 0 is
filled with the scale at change 0; otherwise a zero reference value gives
the scale at 0.5; otherwise the scale at the change clamped to [−1, 1] —
where the scale is the piecewise-linear RGB interpolation anchored at
−1.5 → red, 0 → pale yellow, +1.5 → green. -/
theorem C2_by_change_color (o : HeatmapOptions) (frame : Frame) (category : String)
    (f : Field) (pivotIndex : ℕ)
    (hfind : (categoryFields (mkConfig o) frame).find? (fun g => g.name == category) = some f)
    (hlen : f.values.length = frame.dataLen)
    (hi : pivotIndex < frame.dataLen) :
    getColor (mkConfig o) 0 frame category pivotIndex
      = some
          (if round2 (f.values.get ⟨pivotIndex, by omega⟩) = 0 then colorByChange 0
           else if refValueSpec f ((pivotIndex : ℤ) + referenceChange (mkConfig o)) = 0 then
             colorByChange (1/2)
           else
             colorByChange
               (min 1 (max (-1)
                 ((round2 (f.values.get ⟨pivotIndex, by omega⟩)
                     - refValueSpec f ((pivotIndex : ℤ) + referenceChange (mkConfig o)))
                   / refValueSpec f ((pivotIndex : ℤ) + referenceChange (mkConfig o)))))) ∧
    colorByChange (-(3/2)) = Color.rgb redC ∧
    colorByChange 0 = Color.rgb paleYellow ∧
    colorByChange (3/2) = Color.rgb greenC ∧
    (∀ t : ℚ, t ≤ 0 →
        colorByChange t = Color.rgb (lerpRGB redC paleYellow ((t + 3/2) / (3/2)))) ∧
    (∀ t : ℚ, 0 < t →
        colorByChange t = Color.rgb (lerpRGB paleYellow greenC (t / (3/2)))) := by
  refine ⟨?_, ?_, ?_, ?_, ?_, ?_⟩
  · show colorChange (categoryFields (mkConfig o) frame) (referenceChange (mkConfig o))
        category pivotIndex = _
    unfold colorChange
    rw [getValues_char (categoryFields (mkConfig o) frame) (referenceChange (mkConfig o))
      category pivotIndex f hfind (by omega)]
    simp only [Option.map_some']
    exact congrArg some (colorChangeOf_num _ _)
  · unfold colorByChange
    rw [if_pos (by norm_num)]
    unfold lerpRGB redC paleYellow
    norm_num
  · unfold colorByChange
    rw [if_pos (by norm_num)]
    unfold lerpRGB redC paleYellow
    norm_num
  · unfold colorByChange
    rw [if_neg (by norm_num)]
    unfold lerpRGB paleYellow greenC
    norm_num
  · intro t ht
    unfold colorByChange
    rw [if_pos ht]
  · intro t ht
    unfold colorByChange
    rw [if_neg (by linarith)]

theorem C2_witness :
    getColor (mkConfig optC8) 0 frameC8 "X" 0 = some (colorByChange (-(1/2))) := by
  have h := C2_by_change_color optC8 frameC8 "X" fieldX 0 findXC8 rfl (by decide)
  rw [h.1, refChangeC8]
  have hg : fieldX.values.get ⟨0, by norm_num [fieldX]⟩ = 10 := rfl
  have hr : refValueSpec fieldX (((0 : ℕ) : ℤ) + 1) = 20 := by
    rw [refValueSpec, dif_pos (by decide)]
    norm_num [fieldX, round2, round_eq]
  have h10 : round2 10 = 10 := by norm_num [round2, round_eq]
  rw [hg, hr, h10]
  have hm : min (1 : ℚ) (max (-1) ((10 - 20) / 20)) = -(1/2) := by
    rw [show ((10 : ℚ) - 20) / 20 = -(1/2) by norm_num]
    rw [max_eq_right (by norm_num), min_eq_right (by norm_num)]
  rw [if_neg (by norm_num), if_neg (by norm_num), hm]

/-- C5: line 1 of a cell label is the current value SI-formatted at 3
significant digits when the current value is non-zero and the placeholder
dash when it is zero; line 2 (the change as a 1-decimal percentage) is
drawn exactly when both the current and the reference value are non-zero. -/
theorem C5_cell_labels (o : HeatmapOptions) (frame : Frame) (category : String)
    (f : Field) (pivotIndex : ℕ)
    (hfind : (categoryFields (mkConfig o) frame).find? (fun g => g.name == category) = some f)
    (hlen : f.values.length = frame.dataLen)
    (hi : pivotIndex < frame.dataLen) :
    cellLabel (categoryFields (mkConfig o) frame) (referenceChange (mkConfig o))
        category pivotIndex
      = some
          ((if round2 (f.values.get ⟨pivotIndex, by omega⟩) = 0 then CellText.dash
            else CellText.si3 (JSNum.num (round2 (f.values.get ⟨pivotIndex, by omega⟩)))),
           (if round2 (f.values.get ⟨pivotIndex, by omega⟩) ≠ 0
               ∧ refValueSpec f ((pivotIndex : ℤ) + referenceChange (mkConfig o)) ≠ 0 then
             some (CellText.pct1
               (jsDiv
                 (jsSub (JSNum.num (round2 (f.values.get ⟨pivotIndex, by omega⟩)))
                   (JSNum.num (refValueSpec f ((pivotIndex : ℤ) + referenceChange (mkConfig o)))))
                 (JSNum.num (refValueSpec f ((pivotIndex : ℤ) + referenceChange (mkConfig o))))))
            else none)) := by
  unfold cellLabel
  rw [getValues_char (categoryFields (mkConfig o) frame) (referenceChange (mkConfig o))
    category pivotIndex f hfind (by omega)]
  by_cases hc : round2 (f.values.get ⟨pivotIndex, by omega⟩) = 0
  · simp [cellLine1, cellLine2, truthy, hc]
  · by_cases hr : refValueSpec f ((pivotIndex : ℤ) + referenceChange (mkConfig o)) = 0
    · simp [cellLine1, cellLine2, truthy, hc, hr]
    · simp [cellLine1, cellLine2, truthy, hc, hr]

theorem C5_witness :
    cellLabel (categoryFields (mkConfig optC8) frameC8) (referenceChange (mkConfig optC8)) "X" 0
      = some (CellText.si3 (JSNum.num 10),
              some (CellText.pct1 (JSNum.num (-(1/2))))) := by
  have h := C5_cell_labels optC8 frameC8 "X" fieldX 0 findXC8 rfl (by decide)
  rw [h, refChangeC8]
  have hg : fieldX.values.get ⟨0, by norm_num [fieldX]⟩ = 10 := rfl
  have hr : refValueSpec fieldX (((0 : ℕ) : ℤ) + 1) = 20 := by
    rw [refValueSpec, dif_pos (by decide)]
    norm_num [fieldX, round2, round_eq]
  have h10 : round2 10 = 10 := by norm_num [round2, round_eq]
  rw [hg, hr, h10]
  rw [if_neg (by norm_num), if_pos (by constructor <;> norm_num)]
  simp [jsSub, jsDiv]
  norm_num

/-- C10: a cell whose reference index is out of range yields exactly the
same getValues triple — and hence the same by-change color and the same
label lines — as a cell with the same rounded current value whose in-range
reference cell rounds to 0. -/
theorem C10_missing_ref_equiv (cats₁ cats₂ : List Field) (δ : ℤ) (cat₁ cat₂ : String)
    (i₁ i₂ : ℕ) (f₁ f₂ : Field)
    (h₁ : cats₁.find? (fun g => g.name == cat₁) = some f₁)
    (h₂ : cats₂.find? (fun g => g.name == cat₂) = some f₂)
    (hi₁ : i₁ < f₁.values.length) (hi₂ : i₂ < f₂.values.length)
    (hcur : round2 (f₁.values.get ⟨i₁, hi₁⟩) = round2 (f₂.values.get ⟨i₂, hi₂⟩))
    (hout : ¬(0 ≤ (i₁ : ℤ) + δ ∧ ((i₁ : ℤ) + δ).toNat < f₁.values.length))
    (hin : 0 ≤ (i₂ : ℤ) + δ ∧ ((i₂ : ℤ) + δ).toNat < f₂.values.length)
    (hzero : round2 (f₂.values.get ⟨((i₂ : ℤ) + δ).toNat, hin.2⟩) = 0) :
    getValues cats₁ δ cat₁ i₁ = getValues cats₂ δ cat₂ i₂ ∧
    colorChange cats₁ δ cat₁ i₁ = colorChange cats₂ δ cat₂ i₂ ∧
    cellLabel cats₁ δ cat₁ i₁ = cellLabel cats₂ δ cat₂ i₂ := by
  have hg : getValues cats₁ δ cat₁ i₁ = getValues cats₂ δ cat₂ i₂ := by
    rw [getValues_char cats₁ δ cat₁ i₁ f₁ h₁ hi₁,
        getValues_char cats₂ δ cat₂ i₂ f₂ h₂ hi₂]
    have e1 : refValueSpec f₁ ((i₁ : ℤ) + δ) = 0 := by
      rw [refValueSpec, dif_neg hout]
    have e2 : refValueSpec f₂ ((i₂ : ℤ) + δ) = 0 := by
      rw [refValueSpec, dif_pos hin]
      exact hzero
    rw [e1, e2, hcur]
  exact ⟨hg, by unfold colorChange; rw [hg], by unfold cellLabel; rw [hg]⟩

def fieldY : Field := ⟨"Y", [10]⟩

def fieldX2 : Field := ⟨"X", [10, 0]⟩

theorem C10_witness :
    getValues [fieldY] 1 "Y" 0 = getValues [fieldX2] 1 "X" 0 ∧
    colorChange [fieldY] 1 "Y" 0 = colorChange [fieldX2] 1 "X" 0 ∧
    cellLabel [fieldY] 1 "Y" 0 = cellLabel [fieldX2] 1 "X" 0 :=
  C10_missing_ref_equiv [fieldY] [fieldX2] 1 "Y" "X" 0 0 fieldY fieldX2
    (by simp [List.find?, fieldY]) (by simp [List.find?, fieldX2])
    (by norm_num [fieldY]) (by norm_num [fieldX2])
    rfl (by decide) (by decide)
    (by norm_num [fieldX2, round2, round_eq])

def fieldNeg : Field := ⟨"B", [-1, 0]⟩

def frameC3 : Frame := ⟨[⟨"pivot", [1, 2]⟩, fieldNeg], 2⟩

/-- C3 counterexample: the column B = [−1, 0] does not sum to 0, yet the
code excludes it from the pruned category fields and from the rendered
category domain — the claim's "other category columns are kept" fails. -/
theorem C3_counterexample :
    fieldNeg ∈ baseCategoryFields frameC3 ∧
    fieldSum fieldNeg ≠ 0 ∧
    fieldNeg ∉ categoryFields (mkConfig optC8) frameC3 ∧
    "B" ∉ categories (mkConfig optC8) frameC3 := by
  have hbase : baseCategoryFields frameC3 = [fieldNeg] := by
    simp [baseCategoryFields, frameC3, fieldNeg]
  have hp : (decide (0 < fieldSum fieldNeg)) = false := by
    rw [decide_eq_false_iff_not, not_lt]
    norm_num [fieldSum, fieldNeg]
  have hcat : categoryFields (mkConfig optC8) frameC3 = [] := by
    rw [show categoryFields (mkConfig optC8) frameC3
        = (baseCategoryFields frameC3).filter (fun f => decide (0 < fieldSum f)) from rfl,
      hbase]
    simp [List.filter, hp]
  refine ⟨?_, ?_, ?_, ?_⟩
  · rw [hbase]
    simp
  · norm_num [fieldSum, fieldNeg]
  · rw [hcat]
    simp
  · simp [categories, hcat]

/-- C3 (amended): every category column whose values sum to a non-positive
total (in particular, to 0) is excluded both from the pruned category
fields — hence from the rendered category domain and the color-domain
computation — while the columns with positive sum are kept in table order. -/
theorem C3_amended_pruning (o : HeatmapOptions) (frame : Frame) :
    (∀ f ∈ baseCategoryFields frame, fieldSum f ≤ 0 →
        f ∉ categoryFields (mkConfig o) frame) ∧
    (categoryFields (mkConfig o) frame).Sublist (baseCategoryFields frame) ∧
    (∀ f ∈ baseCategoryFields frame, 0 < fieldSum f →
        f ∈ categoryFields (mkConfig o) frame) ∧
    categories (mkConfig o) frame = (categoryFields (mkConfig o) frame).map Field.name ∧
    (∀ g : Field, g.name ≠ "pivot" → fieldSum g ≤ 0 →
        categories (mkConfig o) ⟨frame.fields ++ [g], frame.dataLen⟩
          = categories (mkConfig o) frame ∧
        categoryExtent (mkConfig o) ⟨frame.fields ++ [g], frame.dataLen⟩
          = categoryExtent (mkConfig o) frame) := by
  have hcfg : categoryFields (mkConfig o) frame
      = (baseCategoryFields frame).filter (fun f => decide (0 < fieldSum f)) := by
    simp [categoryFields, mkConfig]
  refine ⟨?_, ?_, ?_, rfl, ?_⟩
  · intro f hf hle
    rw [hcfg, List.mem_filter]
    rintro ⟨-, hp⟩
    rw [decide_eq_true_eq] at hp
    linarith
  · rw [hcfg]
    exact List.filter_sublist _
  · intro f hf hpos
    rw [hcfg, List.mem_filter]
    exact ⟨hf, by simpa using hpos⟩
  · intro g hg hle
    have hp : (decide (0 < fieldSum g)) = false := by
      rw [decide_eq_false_iff_not, not_lt]
      exact hle
    have hbase : baseCategoryFields ⟨frame.fields ++ [g], frame.dataLen⟩
        = baseCategoryFields frame ++ [g] := by
      simp [baseCategoryFields, List.filter_append, hg]
    have hcat : categoryFields (mkConfig o) ⟨frame.fields ++ [g], frame.dataLen⟩
        = categoryFields (mkConfig o) frame := by
      have h2 : categoryFields (mkConfig o) ⟨frame.fields ++ [g], frame.dataLen⟩
          = (baseCategoryFields ⟨frame.fields ++ [g], frame.dataLen⟩).filter
              (fun f => decide (0 < fieldSum f)) := by
        simp [categoryFields, mkConfig]
      rw [h2, hbase, List.filter_append, hcfg]
      simp [hp]
    exact ⟨by simp [categories, hcat], by simp [categoryExtent, hcat]⟩

theorem C3_witness :
    categories (mkConfig optC8) ⟨frameC8.fields ++ [⟨"Z", [0, 0, 0]⟩], frameC8.dataLen⟩
      = categories (mkConfig optC8) frameC8 ∧
    categoryExtent (mkConfig optC8) ⟨frameC8.fields ++ [⟨"Z", [0, 0, 0]⟩], frameC8.dataLen⟩
      = categoryExtent (mkConfig optC8) frameC8 :=
  (C3_amended_pruning optC8 frameC8).2.2.2.2 ⟨"Z", [0, 0, 0]⟩ (by decide)
    (by norm_num [fieldSum])

end Heatmap
